import Mathlib

/-!
Verification of the LLM instance pool of the `llm-tutor` repository.

The development shallowly embeds the pool logic of
`src/model/backend_control/llm_pool.py` and the configuration-comparison
helper `check_equality` of `src/utility/bronze/dictionary_utility.py`.

Modelling conventions:
* Python configuration dictionaries are nested string-keyed mappings whose
  leaves are opaque comparable values; they are embedded as `PyVal` /
  `PyDict` (association lists with unique keys, as Python dicts have).
* Python's `==` on such values is embedded as `pyEq` (recursive, key-order
  insensitive).
* Exceptions (`KeyError` raised by `self.workers[...]` / `[...]["switch"]` /
  `[...]["input"]` lookups) are embedded with `Except KeyErr`.
* The worker body `run_threaded_llm` / `run_multiprocessed_llm` is embedded
  as a small-step function `run_llm_step` over the worker's channel state;
  an execution unit blocked in `input_queue.get()` is a state on which the
  step function makes no progress.  Real-time waits (`switch.wait(0.5)`,
  `Queue.get(timeout=...)`) are abstracted by an explicit scheduling
  parameter: the number of body steps the execution unit performs while the
  caller waits.  The external model factory
  (`spawn_language_model_instance`) is an opaque parameter `factory`.
* `MulitprocessingLLMPool._unload_llm` additionally inspects the process
  exit code and may `kill()`; killing has no further observable effect on
  the pool state beyond what is modelled (the record keeps its entries),
  so it is not represented separately.
-/

/-- A Python value stored in a configuration dictionary: either an opaque
non-dict leaf (identified by a string so that leaves are comparable), or a
nested string-keyed dictionary. -/
inductive PyVal where
  | prim (s : String)
  | dict (fields : List (String × PyVal))

/-- A Python dictionary: association list of keys to values.  Embeddings of
actual Python dicts have pairwise distinct keys. -/
abbrev PyDict := List (String × PyVal)

/-- Key-set inclusion: every key of `t` occurs in `d`. -/
def keysSubset (t d : PyDict) : Bool :=
  t.all (fun kv => (d.lookup kv.1).isSome)

mutual

/-- Python `==` on embedded values: leaves compare by their identifier,
dictionaries compare as finite maps (same key set, recursively equal values
per key, insertion order irrelevant); a dict never equals a non-dict. -/
def pyEq : PyVal → PyVal → Bool
  | .prim a, .prim b => a == b
  | .dict d, .dict t => pyEqFields d t && keysSubset t d
  | .prim _, .dict _ => false
  | .dict _, .prim _ => false

/-- Every field of `d` occurs in `t` with a `pyEq`-equal value. -/
def pyEqFields : PyDict → PyDict → Bool
  | [], _ => true
  | (k, v) :: rest, t =>
    (match t.lookup k with
     | some w => pyEq v w
     | none => false) && pyEqFields rest t

end

/-- Embedding of `any(elem == e[-1] for e in exceptions)` in `check_equality`
(src/utility/bronze/dictionary_utility.py lines 139 and 148).  An empty
exception path would raise in Python; it never arises in the pool, which
always passes the default `exceptions=[]`. -/
def excMatches (exc : List (List String)) (k : String) : Bool :=
  exc.any (fun e => e.getLast? == some k)

/-- Embedding of `[e[1:] for e in exceptions if len(e) > 1 and (e[0] == elem or e[0] == "*")]`
(dictionary_utility.py line 142). -/
def excDescend (exc : List (List String)) (k : String) : List (List String) :=
  exc.filterMap (fun e =>
    if 1 < e.length && (e.head? == some k || e.head? == some "*") then some e.tail else none)

mutual

/-- Embedding of `check_equality`, src/utility/bronze/dictionary_utility.py lines
129-150: iterates over the keys of `data` (the first argument only); a key
of `data` missing from `test_data` fails the check, keys present only in
`test_data` are never examined. -/
def check_equality : PyDict → PyDict → List (List String) → Bool
  | [], _, _ => true
  | (k, v) :: rest, t, exc => checkField k v t exc && check_equality rest t exc

/-- The body of `check_equality`'s loop for a single key `k` of `data` with
value `v` (dictionary_utility.py lines 138-149). -/
def checkField (k : String) (v : PyVal) (t : PyDict) (exc : List (List String)) : Bool :=
  match t.lookup k with
  | some w =>
    if excMatches exc k then true
    else
      match v with
      | .dict dv =>
        match w with
        | .dict tv => check_equality dv tv (excDescend exc k)
        | .prim _ => false
      | .prim a => pyEq (.prim a) w
  | none => excMatches exc k

end

/-- A raised Python `KeyError`, carrying the missing key. -/
inductive KeyErr where
  | keyError (key : String)

/-- Program counter of the worker body loop (`run_threaded_llm` /
`run_multiprocessed_llm`, llm_pool.py lines 20-49): at the top of the loop
polling `switch.wait(0.5)`, blocked in `input_queue.get()`, or exited. -/
inductive BodyPhase where
  | checkSwitch
  | awaitPrompt
  | done

/-- Per-run state of a started worker: the stop-signal event, the two FIFO
queues, the body's program counter, and the configuration the execution
unit was spawned with (captured at `_load_llm` time; a later `reset_llm`
does not change the already-running body's model). -/
structure WorkerRun where
  switchSet : Bool
  input : List String
  output : List String
  phase : BodyPhase
  spawnedConfig : PyDict

/-- One entry of `LLMPool.workers`: `prepare_llm` creates it with only
`config` and `running` (llm_pool.py lines 141-144); the channel/signal/
execution-unit entries (modelled by `run`) appear at the first `_load_llm`
and persist afterwards. -/
structure WorkerRecord where
  config : PyDict
  running : Bool
  run : Option WorkerRun

/-- Which concrete pool class is in use: `ThreadedLLMPool` or
`MulitprocessingLLMPool` (sic, the source's spelling). -/
inductive PoolKind where
  | threaded
  | multiprocessing

/-- State of an `LLMPool` instance: its class and the `workers` mapping
(Python dict from worker uuid to record, insertion ordered). -/
structure PoolState where
  kind : PoolKind
  workers : List (String × WorkerRecord)

/-- Replace the record stored under key `x` (mutation of
`self.workers[x]`); identity when `x` is not registered. -/
def updateWorker (ws : List (String × WorkerRecord)) (x : String) (r : WorkerRecord) :
    List (String × WorkerRecord) :=
  ws.map (fun p => if p.1 == x then (x, r) else p)

/-- Embedding of `LLMPool.is_running` (llm_pool.py lines 97-103): plain lookup of the
`running` flag; an unknown id raises `KeyError`. -/
def is_running (st : PoolState) (x : String) : Except KeyErr Bool :=
  match st.workers.lookup x with
  | some r => .ok r.running
  | none => .error (.keyError x)

/-- Embedding of `self.workers[x]["running"] = b`; only reached in contexts where `x` is
registered. -/
def setRunning (st : PoolState) (x : String) (b : Bool) : PoolState :=
  match st.workers.lookup x with
  | some r => { st with workers := (updateWorker st.workers x { r with running := b }) }
  | none => st

/-- Embedding of `_load_llm` (llm_pool.py lines 181-200 / 229-247): fresh stop signal,
fresh empty input/output queues, spawn the execution unit on the worker
body with the currently stored configuration, set `running` to `True`. -/
def load_llm (st : PoolState) (x : String) : Except KeyErr PoolState :=
  match st.workers.lookup x with
  | none => .error (.keyError x)
  | some r =>
    .ok { st with
          workers := (updateWorker st.workers x
            { r with
              running := true
              run := some { switchSet := false, input := [], output := [],
                            phase := .checkSwitch, spawnedConfig := r.config } }) }

/-- Embedding of `_unload_llm`: set the stop signal and join the execution unit with a
1-second bound (llm_pool.py lines 202-208 / 249-258).  On a record that was
never started the `["switch"]` access raises `KeyError`.  Only the
multiprocessing variant clears the `running` flag (line 258); the threaded
variant leaves it untouched.  The join itself does not mutate pool state
(the schedule in which the body takes no step during the join is
represented; the body's own steps are modelled by `run_llm_step`). -/
def unload_llm (st : PoolState) (x : String) : Except KeyErr PoolState :=
  match st.workers.lookup x with
  | none => .error (.keyError x)
  | some r =>
    match r.run with
    | none => .error (.keyError "switch")
    | some w =>
      match st.kind with
      | .threaded =>
        .ok { st with workers := (updateWorker st.workers x
              { r with run := some { w with switchSet := true } }) }
      | .multiprocessing =>
        .ok { st with workers := (updateWorker st.workers x
              { r with running := false, run := some { w with switchSet := true } }) }

/-- Embedding of `LLMPool.stop` (llm_pool.py lines 79-86): only if `is_running`, unload
and clear the flag; otherwise a no-op. -/
def stop (st : PoolState) (x : String) : Except KeyErr PoolState := do
  let b ← is_running st x
  if b then do
    let st' ← unload_llm st x
    pure (setRunning st' x false)
  else pure st

/-- Embedding of `LLMPool.start` (llm_pool.py lines 88-95): only if not `is_running`,
load and set the flag; otherwise a no-op. -/
def start (st : PoolState) (x : String) : Except KeyErr PoolState := do
  let b ← is_running st x
  if b then pure st
  else do
    let st' ← load_llm st x
    pure (setRunning st' x true)

/-- The loop body of `LLMPool.stop_all` run over a list of worker ids:
unconditionally `_unload_llm` (not `stop`) then clear the flag
(llm_pool.py lines 75-77).  A raised `KeyError` propagates; the partial
mutations Python leaves behind in that case are not needed by any claim
and are not represented. -/
def stopAllFrom : List String → PoolState → Except KeyErr PoolState
  | [], st => .ok st
  | x :: rest, st =>
    match unload_llm st x with
    | .error e => .error e
    | .ok st' => stopAllFrom rest (setRunning st' x false)

/-- Embedding of `LLMPool.stop_all` (llm_pool.py lines 71-77): iterate over all
registered worker ids in insertion order. -/
def stop_all (st : PoolState) : Except KeyErr PoolState :=
  stopAllFrom (st.workers.map Prod.fst) st

/-- Embedding of `LLMPool.reset_llm` (llm_pool.py lines 117-129): if
`check_equality(stored, new)` fails, unload when running and overwrite the
stored configuration; always return the worker id. -/
def reset_llm (st : PoolState) (x : String) (cfg : PyDict) :
    Except KeyErr (String × PoolState) :=
  match st.workers.lookup x with
  | none => .error (.keyError x)
  | some r =>
    if check_equality r.config cfg [] then .ok (x, st)
    else
      match (if r.running then unload_llm st x else .ok st) with
      | .error e => .error e
      | .ok st' =>
        match st'.workers.lookup x with
        | none => .error (.keyError x)
        | some r' =>
          .ok (x, { st' with workers := (updateWorker st'.workers x { r' with config := cfg }) })

/-- Embedding of `LLMPool.prepare_llm` (llm_pool.py lines 131-147): use the given id or
a freshly generated uuid (`freshUuid` stands for the `uuid4()` draw), then
either register a new not-running record or delegate to `reset_llm`. -/
def prepare_llm (st : PoolState) (cfg : PyDict) (givenUuid : Option String)
    (freshUuid : String) : Except KeyErr (String × PoolState) :=
  let uuid := givenUuid.getD freshUuid
  match st.workers.lookup uuid with
  | none =>
    .ok (uuid, { st with workers := st.workers ++ [(uuid, { config := cfg, running := false, run := none })] })
  | some _ => reset_llm st uuid cfg

/-- The configuration currently stored for worker `x`
(`self.workers[x]["config"]`), if registered. -/
def storedConfig (st : PoolState) (x : String) : Option PyDict :=
  (st.workers.lookup x).map WorkerRecord.config

section WorkerBody

variable (factory : PyDict → String → String)

/-- One step of the worker body loop of `run_threaded_llm` /
`run_multiprocessed_llm` (llm_pool.py lines 30-31 and 45-46):

* at the top of the loop, `switch.wait(0.5)` returns the flag: if set the
  loop exits, otherwise the body moves on to `input_queue.get()`;
* blocked in `input_queue.get()` — which has no timeout — the body consumes
  a prompt if one is queued (then generates and pushes the response, one
  atomic step here) and otherwise stays blocked, whatever the switch says;
* after exiting, the body stays exited.

`factory cfg` is the `generate` capability of the model object returned by
`spawn_language_model_instance(**cfg)`. -/
def run_llm_step (w : WorkerRun) : WorkerRun :=
  match w.phase with
  | .done => w
  | .checkSwitch =>
    if w.switchSet then { w with phase := .done }
    else { w with phase := .awaitPrompt }
  | .awaitPrompt =>
    match w.input with
    | [] => w
    | p :: rest =>
      { w with input := rest,
               output := w.output ++ [factory w.spawnedConfig p],
               phase := .checkSwitch }

/-- The execution unit runs for `n` scheduler steps. -/
def drive (n : Nat) (w : WorkerRun) : WorkerRun :=
  match n with
  | 0 => w
  | n + 1 => drive n (run_llm_step factory w)

/-- Embedding of `ThreadedLLMPool.generate` / `MulitprocessingLLMPool.generate`
(llm_pool.py lines 210-221 and 260-271): push the prompt onto the worker's
input queue, then block on the output queue for up to
`generation_timeout`; `queue.Empty` is caught and turned into `None`.
`steps` is the number of body steps the worker's execution unit performs
while the caller waits; the timeout elapsing is the case in which the
output queue is still empty after those steps. -/
def generate (st : PoolState) (x : String) (prompt : String) (steps : Nat) :
    Except KeyErr (Option String × PoolState) :=
  match st.workers.lookup x with
  | none => .error (.keyError x)
  | some r =>
    match r.run with
    | none => .error (.keyError "input")
    | some w =>
      let w2 := drive factory steps { w with input := w.input ++ [prompt] }
      match w2.output with
      | res :: rest =>
        .ok (some res,
             { st with workers := (updateWorker st.workers x { r with run := some { w2 with output := rest } }) })
      | [] =>
        .ok (none, { st with workers := (updateWorker st.workers x { r with run := some w2 }) })

/-- Scheduler interleaving between pool calls: the execution unit of worker
`x` runs for `n` body steps while the controlling thread is elsewhere. -/
def runWorkerSteps (st : PoolState) (x : String) (n : Nat) : PoolState :=
  match st.workers.lookup x with
  | none => st
  | some r =>
    match r.run with
    | none => st
    | some w => { st with workers := (updateWorker st.workers x { r with run := some (drive factory n w) }) }

end WorkerBody

/-! ### Concrete states used by counterexamples and witnesses -/

/-- A configuration with one model-path field. -/
def cfgA : PyDict := [("model_path", .prim "modelA")]

/-- A second configuration differing from `cfgA` in its model-path field. -/
def cfgB : PyDict := [("model_path", .prim "modelB")]

/-- A one-field extension of the empty configuration. -/
def cfgExt : PyDict := [("a", .prim "1")]

/-- A two-field configuration with a nested dictionary. -/
def cfgNested : PyDict :=
  [("model_path", .prim "modelA"), ("model_config", .dict [("x", .prim "1")])]

/-- The dictionary `cfgNested` with its fields listed in the other order: a distinct
association list denoting the same Python dictionary. -/
def cfgNestedPerm : PyDict :=
  [("model_config", .dict [("x", .prim "1")]), ("model_path", .prim "modelA")]

/-- A fresh `ThreadedLLMPool` with no workers. -/
def emptyThreadedPool : PoolState := { kind := .threaded, workers := [] }

/-- A fresh `MulitprocessingLLMPool` with no workers. -/
def emptyMultiprocessingPool : PoolState := { kind := .multiprocessing, workers := [] }

/-- A threaded pool holding one worker that was prepared with the empty
configuration and never started. -/
def preparedOnlyPool : PoolState :=
  { kind := .threaded,
    workers := [("X", { config := [], running := false, run := none })] }

/-- A threaded pool holding one running worker spawned on `cfgNested`. -/
def runningNestedPool : PoolState :=
  { kind := .threaded,
    workers := [("X", { config := cfgNested, running := true,
                        run := some { switchSet := false, input := [], output := [],
                                      phase := .checkSwitch, spawnedConfig := cfgNested } })] }

/-- A deterministic stand-in for the model's generate capability. -/
def demoFactory : PyDict → String → String := fun _ p => "resp_" ++ p

/-- A worker-body state blocked in `input_queue.get()` with the stop signal
already set and nothing queued. -/
def stuckRun : WorkerRun :=
  { switchSet := true, input := [], output := [], phase := .awaitPrompt,
    spawnedConfig := cfgA }

/-- The worker body never exits: no number of scheduler steps brings the
execution unit to the exited phase. -/
def stuckForever (factory : PyDict → String → String) (w : WorkerRun) : Prop :=
  ∀ n, (drive factory n w).phase ≠ BodyPhase.done

/-! ### Helper lemmas -/

theorem lookup_cons_self {α : Type} (k : String) (v : α) (rest : List (String × α)) :
    ((k, v) :: rest).lookup k = some v := by
  simp [List.lookup_cons]

theorem lookup_cons_ne {α : Type} {y k : String} (h : y ≠ k) (v : α)
    (rest : List (String × α)) : ((k, v) :: rest).lookup y = rest.lookup y := by
  have hb : (y == k) = false := by simp [h]
  rw [List.lookup_cons, hb]

theorem lookup_updateWorker (ws : List (String × WorkerRecord)) (x y : String)
    (r : WorkerRecord) :
    (updateWorker ws x r).lookup y =
      if y = x then (ws.lookup x).map (fun _ => r) else ws.lookup y := by
  induction ws with
  | nil => simp [updateWorker]
  | cons p rest ih =>
    obtain ⟨k, v⟩ := p
    simp only [updateWorker, List.map_cons] at ih ⊢
    by_cases hkx : k = x
    · subst hkx
      simp only [beq_self_eq_true, if_true]
      by_cases hyk : y = k
      · subst hyk
        simp [lookup_cons_self]
      · rw [lookup_cons_ne hyk, lookup_cons_ne hyk, ih]
        simp [hyk]
    · have hbk : (k == x) = false := by simp [hkx]
      rw [hbk]
      simp only [Bool.false_eq_true, if_false]
      by_cases hyk : y = k
      · subst hyk
        have hyx : y ≠ x := hkx
        rw [lookup_cons_self, lookup_cons_self, if_neg hyx]
      · rw [lookup_cons_ne hyk, lookup_cons_ne hyk, ih,
          lookup_cons_ne (fun h => hkx h.symm)]

theorem pyEqFields_check_equality :
    ∀ (n : Nat) (d t : PyDict), sizeOf d ≤ n →
      pyEqFields d t = true → check_equality d t [] = true := by
  intro n
  induction n with
  | zero =>
    intro d t hs _
    cases d with
    | nil => rfl
    | cons p rest => simp at hs
  | succ m ih =>
    intro d t hs hf
    cases d with
    | nil => rfl
    | cons p rest =>
      obtain ⟨k, v⟩ := p
      rw [pyEqFields, Bool.and_eq_true] at hf
      obtain ⟨hv, hrest⟩ := hf
      rw [check_equality, Bool.and_eq_true]
      refine ⟨?_, ?_⟩
      · rw [checkField]
        cases hw : t.lookup k with
        | none =>
          rw [hw] at hv
          exact Bool.noConfusion hv
        | some w =>
          rw [hw] at hv
          have hv' : pyEq v w = true := hv
          have hsv : sizeOf v ≤ m := by
            simp only [List.cons.sizeOf_spec, Prod.mk.sizeOf_spec] at hs
            omega
          clear hv hs
          cases v with
          | prim a =>
            show (if excMatches [] k = true then true
                  else pyEq (PyVal.prim a) w) = true
            rw [if_neg (by simp [excMatches])]
            exact hv'
          | dict dv =>
            have hbv : sizeOf dv ≤ m := by
              simp only [PyVal.dict.sizeOf_spec] at hsv
              omega
            cases w with
            | prim b => exact Bool.noConfusion hv'
            | dict tv =>
              have hv2 : (pyEqFields dv tv && keysSubset tv dv) = true := hv'
              rw [Bool.and_eq_true] at hv2
              show (if excMatches [] k = true then true
                    else check_equality dv tv (excDescend [] k)) = true
              rw [if_neg (by simp [excMatches])]
              show check_equality dv tv [] = true
              exact ih dv tv hbv hv2.1
      · have hbr : sizeOf rest ≤ m := by
          simp only [List.cons.sizeOf_spec] at hs
          omega
        exact ih rest t hbr hrest

/-- Two configurations related by Python `==` pass `check_equality` with no
exception paths. -/
theorem pyEq_check_equality (d t : PyDict) (h : pyEq (.dict d) (.dict t) = true) :
    check_equality d t [] = true := by
  have h1 : (pyEqFields d t && keysSubset t d) = true := h
  rw [Bool.and_eq_true] at h1
  exact pyEqFields_check_equality (sizeOf d) d t le_rfl h1.1

/-- C8: for every registered worker id X and every configuration c that is
deep-equal (Python `==`) to X's stored configuration, `reset_llm` is a
complete no-op: it returns X and leaves the whole pool state — running
flag, channels, signal, execution unit of every worker — unchanged. -/
theorem c8_theorem (st : PoolState) (x : String) (r : WorkerRecord) (c : PyDict)
    (hx : st.workers.lookup x = some r)
    (heq : pyEq (.dict r.config) (.dict c) = true) :
    reset_llm st x c = .ok (x, st) := by
  have h2 : check_equality r.config c [] = true := pyEq_check_equality r.config c heq
  simp [reset_llm, hx, h2]

/-- Witness for C8 at a running worker whose stored configuration lists its
fields in a different order than the argument configuration: the reset is a
no-op and the worker stays running. -/
theorem c8_witness :
    reset_llm runningNestedPool "X" cfgNestedPerm = .ok ("X", runningNestedPool) ∧
    is_running runningNestedPool "X" = .ok true :=
  ⟨c8_theorem runningNestedPool "X"
      { config := cfgNested, running := true,
        run := some { switchSet := false, input := [], output := [],
                      phase := .checkSwitch, spawnedConfig := cfgNested } }
      cfgNestedPerm rfl rfl,
   rfl⟩

/-- C4 counterexample: the empty stored configuration and the one-field
configuration `cfgExt` are unequal as nested mappings (Python `==` is
false), yet `reset_llm` is a no-op — the stored configuration is not
replaced — because `check_equality` only iterates over the keys of the
stored dictionary. -/
theorem c4_counterexample :
    pyEq (.dict []) (.dict cfgExt) = false ∧
    reset_llm preparedOnlyPool "X" cfgExt = .ok ("X", preparedOnlyPool) ∧
    storedConfig preparedOnlyPool "X" = some [] :=
  ⟨rfl, rfl, rfl⟩

/-- C4 amended: `reset_llm` compares configurations with
`check_equality(stored, new)`, which recursively checks that every field of
the stored configuration is present with a deep-equal value in the new one
but never examines keys that occur only in the new configuration.  The
stored configuration is replaced exactly when this one-directional check
fails; when it passes — in particular whenever the new configuration merely
extends the stored one — the call is a no-op. -/
theorem c4_theorem (st : PoolState) (x : String) (r : WorkerRecord) (c : PyDict)
    (hx : st.workers.lookup x = some r)
    (hinv : r.running = true → r.run.isSome = true) :
    (check_equality r.config c [] = true → reset_llm st x c = .ok (x, st)) ∧
    (check_equality r.config c [] = false →
      ∃ st', reset_llm st x c = .ok (x, st') ∧ storedConfig st' x = some c) := by
  constructor
  · intro h
    simp [reset_llm, hx, h]
  · intro h
    cases hr : r.running with
    | false =>
      refine ⟨{ st with workers := (updateWorker st.workers x { r with config := c }) }, ?_, ?_⟩
      · simp [reset_llm, hx, h, hr]
      · simp [storedConfig, lookup_updateWorker, hx]
    | true =>
      obtain ⟨w, hw⟩ := Option.isSome_iff_exists.mp (hinv hr)
      obtain ⟨kind, ws⟩ := st
      simp only at hx
      cases kind with
      | threaded =>
        refine ⟨{ kind := .threaded,
                  workers := (updateWorker
                    (updateWorker ws x { r with run := some { w with switchSet := true } }) x
                    { r with run := some { w with switchSet := true }, config := c }) }, ?_, ?_⟩
        · simp [reset_llm, unload_llm, hx, h, hr, hw, lookup_updateWorker]
        · simp [storedConfig, lookup_updateWorker, hx]
      | multiprocessing =>
        refine ⟨{ kind := .multiprocessing,
                  workers := (updateWorker
                    (updateWorker ws x
                      { r with running := false, run := some { w with switchSet := true } }) x
                    { r with running := false, run := some { w with switchSet := true },
                             config := c }) }, ?_, ?_⟩
        · simp [reset_llm, unload_llm, hx, h, hr, hw, lookup_updateWorker]
        · simp [storedConfig, lookup_updateWorker, hx]

/-- Witness for C4: a worker whose stored configuration has a field missing
from the new configuration is reset to the new configuration. -/
theorem c4_witness :
    ∃ st', reset_llm runningNestedPool "X" cfgB = .ok ("X", st') ∧
      storedConfig st' "X" = some cfgB :=
  (c4_theorem runningNestedPool "X"
      { config := cfgNested, running := true,
        run := some { switchSet := false, input := [], output := [],
                      phase := .checkSwitch, spawnedConfig := cfgNested } }
      cfgB rfl (fun _ => rfl)).2 rfl

/-- C1 counterexample: on a `ThreadedLLMPool`, prepare with `cfgA`, start,
then reset with `cfgB`; the two configurations are unequal under Python
`==` and the reset does replace the stored configuration, but the worker
still reports `is_running == True` afterwards — `ThreadedLLMPool._unload_llm`
(called by `reset_llm` on a running worker) never clears the `running`
flag.  Additionally, `reset_llm` does not even replace the configuration
when the old one is a strict subset of the new one (see the C4
counterexample), a second failure mode of this claim. -/
theorem c1_counterexample :
    pyEq (.dict cfgA) (.dict cfgB) = false ∧
    (do
      let (x, st1) ← prepare_llm emptyThreadedPool cfgA (some "X") "unused"
      let st2 ← start st1 x
      let (_, st3) ← reset_llm st2 x cfgB
      let b ← is_running st3 x
      pure (storedConfig st3 x, b) : Except KeyErr (Option PyDict × Bool)) =
      Except.ok (some cfgB, true) :=
  ⟨rfl, rfl⟩

/-- C1 amended: after `prepare(c1, id=X)`, optionally `start(X)`, then
`reset(X, c2)`, provided `check_equality(c1, c2)` fails (some field of the
stored configuration is missing from or unequal in `c2`; mere extra keys in
`c2` do not qualify), the stored configuration of X equals `c2`; on a
process-backed pool the worker is then not running, but on a thread-backed
pool the `running` flag keeps its pre-reset value, so a worker running
before the reset still reports `is_running(X) == True`. -/
theorem c1_theorem (st : PoolState) (x : String) (r : WorkerRecord) (c2 : PyDict)
    (hx : st.workers.lookup x = some r)
    (hinv : r.running = true → r.run.isSome = true)
    (hneq : check_equality r.config c2 [] = false) :
    ∃ st', reset_llm st x c2 = .ok (x, st') ∧ storedConfig st' x = some c2 ∧
      (st.kind = .multiprocessing → is_running st' x = .ok false) ∧
      (st.kind = .threaded → is_running st' x = .ok r.running) := by
  cases hr : r.running with
  | false =>
    refine ⟨{ st with workers := (updateWorker st.workers x { r with config := c2 }) }, ?_, ?_, ?_, ?_⟩
    · simp [reset_llm, hx, hneq, hr]
    · simp [storedConfig, lookup_updateWorker, hx]
    · intro _
      simp [is_running, lookup_updateWorker, hx, hr]
    · intro _
      simp [is_running, lookup_updateWorker, hx, hr]
  | true =>
    obtain ⟨w, hw⟩ := Option.isSome_iff_exists.mp (hinv hr)
    obtain ⟨kind, ws⟩ := st
    simp only at hx
    cases kind with
    | threaded =>
      refine ⟨{ kind := .threaded,
                workers := (updateWorker
                  (updateWorker ws x { r with run := some { w with switchSet := true } }) x
                  { r with run := some { w with switchSet := true }, config := c2 }) },
              ?_, ?_, ?_, ?_⟩
      · simp [reset_llm, unload_llm, hx, hneq, hr, hw, lookup_updateWorker]
      · simp [storedConfig, lookup_updateWorker, hx]
      · intro hk
        exact PoolKind.noConfusion hk
      · intro _
        simp [is_running, lookup_updateWorker, hx, hr]
    | multiprocessing =>
      refine ⟨{ kind := .multiprocessing,
                workers := (updateWorker
                  (updateWorker ws x
                    { r with running := false, run := some { w with switchSet := true } }) x
                  { r with running := false, run := some { w with switchSet := true },
                           config := c2 }) },
              ?_, ?_, ?_, ?_⟩
      · simp [reset_llm, unload_llm, hx, hneq, hr, hw, lookup_updateWorker]
      · simp [storedConfig, lookup_updateWorker, hx]
      · intro _
        simp [is_running, lookup_updateWorker, hx]
      · intro hk
        exact PoolKind.noConfusion hk

/-- Witness for C1 (amended) at a running thread-backed worker: the reset
replaces the configuration yet the worker still reports running. -/
theorem c1_witness :
    ∃ st', reset_llm runningNestedPool "X" cfgB = .ok ("X", st') ∧
      storedConfig st' "X" = some cfgB ∧ is_running st' "X" = .ok true := by
  obtain ⟨st', h1, h2, _, h4⟩ := c1_theorem runningNestedPool "X"
    { config := cfgNested, running := true,
      run := some { switchSet := false, input := [], output := [],
                    phase := .checkSwitch, spawnedConfig := cfgNested } }
    cfgB rfl (fun _ => rfl) rfl
  exact ⟨st', h1, h2, h4 rfl⟩

theorem except_bind_ok {α β : Type} (a : α) (f : α → Except KeyErr β) :
    (Except.ok a : Except KeyErr α) >>= f = f a := rfl

theorem except_bind_error {α β : Type} (e : KeyErr) (f : α → Except KeyErr β) :
    (Except.error e : Except KeyErr α) >>= f = Except.error e := rfl

theorem except_pure_eq {α : Type} (a : α) : (pure a : Except KeyErr α) = Except.ok a := rfl

theorem lookup_append_self {α : Type} (ws : List (String × α)) (x : String) (r : α)
    (h : ws.lookup x = none) : (ws ++ [(x, r)]).lookup x = some r := by
  induction ws with
  | nil => simp [lookup_cons_self]
  | cons p rest ih =>
    obtain ⟨k, v⟩ := p
    by_cases hxk : x = k
    · subst hxk
      rw [lookup_cons_self] at h
      exact Option.noConfusion h
    · rw [lookup_cons_ne hxk] at h
      rw [List.cons_append, lookup_cons_ne hxk]
      exact ih h

/-- C7: every lookup operation on an id that is not registered — `is_running`,
`stop`, `generate` and `reset_llm` — surfaces the `KeyError` for that id to
the caller; none returns a sentinel value. -/
theorem c7_theorem (st : PoolState) (x : String) (c : PyDict) (p : String) (n : Nat)
    (f : PyDict → String → String) (hx : st.workers.lookup x = none) :
    is_running st x = .error (.keyError x) ∧
    stop st x = .error (.keyError x) ∧
    generate f st x p n = .error (.keyError x) ∧
    reset_llm st x c = .error (.keyError x) := by
  refine ⟨?_, ?_, ?_, ?_⟩ <;>
    simp [is_running, stop, generate, reset_llm, hx, except_bind_error]

/-- Witness for C7 on an empty pool. -/
theorem c7_witness :
    is_running emptyThreadedPool "nope" = .error (.keyError "nope") ∧
    stop emptyThreadedPool "nope" = .error (.keyError "nope") ∧
    generate demoFactory emptyThreadedPool "nope" "p" 0 = .error (.keyError "nope") ∧
    reset_llm emptyThreadedPool "nope" cfgA = .error (.keyError "nope") :=
  c7_theorem emptyThreadedPool "nope" cfgA "p" 0 demoFactory rfl

/-- C9: calling `prepare_llm` with an already-registered id delegates to
`reset_llm` — the result (returned id and the entire resulting pool state,
or raised error) is identical; consequently preparing twice with the same
id equals one prepare followed by a reset with the second configuration. -/
theorem c9_theorem (st : PoolState) (x : String) (c2 : PyDict) (fresh : String) :
    ((st.workers.lookup x).isSome = true →
      prepare_llm st c2 (some x) fresh = reset_llm st x c2) ∧
    (∀ c1 fresh2, st.workers.lookup x = none →
      (do
        let (x1, st1) ← prepare_llm st c1 (some x) fresh2
        prepare_llm st1 c2 (some x1) fresh) =
      (do
        let (x1, st1) ← prepare_llm st c1 (some x) fresh2
        reset_llm st1 x1 c2)) := by
  constructor
  · intro h
    obtain ⟨r, hr⟩ := Option.isSome_iff_exists.mp h
    simp [prepare_llm, hr]
  · intro c1 fresh2 hx
    have h1 : (st.workers ++ [(x, ({ config := c1, running := false, run := none } : WorkerRecord))]).lookup x
        = some { config := c1, running := false, run := none } :=
      lookup_append_self _ _ _ hx
    simp [prepare_llm, hx, except_bind_ok, h1]

/-- Witness for C9: on a pool already holding worker X, `prepare_llm` with
id X and a new configuration coincides with `reset_llm`; and the
prepare-twice chain coincides with prepare-then-reset on an empty pool. -/
theorem c9_witness :
    prepare_llm preparedOnlyPool cfgA (some "X") "f" = reset_llm preparedOnlyPool "X" cfgA ∧
    (do
      let (x1, st1) ← prepare_llm emptyThreadedPool cfgA (some "X") "f1"
      prepare_llm st1 cfgB (some x1) "f2") =
    (do
      let (x1, st1) ← prepare_llm emptyThreadedPool cfgA (some "X") "f1"
      reset_llm st1 x1 cfgB) :=
  ⟨(c9_theorem preparedOnlyPool "X" cfgA "f").1 rfl,
   (c9_theorem emptyThreadedPool "X" cfgB "f2").2 cfgA "f1" rfl⟩

/-- C6: lifecycle state machine for a fresh id X: `prepare` registers X
not-running and returns X; a subsequent `start` makes `is_running` true; a
subsequent `stop` makes it false; `start` on the already-running worker and
`stop` on the not-yet-started worker are no-ops returning the pool state
unchanged. -/
theorem c6_theorem (st : PoolState) (x : String) (c : PyDict) (fresh : String)
    (hx : st.workers.lookup x = none) :
    ((prepare_llm st c (some x) fresh).map Prod.fst = .ok x) ∧
    ((do
      let (x1, st1) ← prepare_llm st c (some x) fresh
      is_running st1 x1) = .ok false) ∧
    ((do
      let (x1, st1) ← prepare_llm st c (some x) fresh
      let st2 ← start st1 x1
      is_running st2 x1) = .ok true) ∧
    ((do
      let (x1, st1) ← prepare_llm st c (some x) fresh
      let st2 ← start st1 x1
      let st3 ← stop st2 x1
      is_running st3 x1) = .ok false) ∧
    ((do
      let (x1, st1) ← prepare_llm st c (some x) fresh
      let st2 ← start st1 x1
      start st2 x1) =
     (do
      let (x1, st1) ← prepare_llm st c (some x) fresh
      start st1 x1)) ∧
    ((do
      let (x1, st1) ← prepare_llm st c (some x) fresh
      stop st1 x1) =
     (do
      let (_x1, st1) ← prepare_llm st c (some x) fresh
      pure st1)) := by
  obtain ⟨kind, ws⟩ := st
  simp only at hx
  have h1 : (ws ++ [(x, ({ config := c, running := false, run := none } : WorkerRecord))]).lookup x
      = some { config := c, running := false, run := none } := lookup_append_self _ _ _ hx
  cases kind <;>
    refine ⟨?_, ?_, ?_, ?_, ?_, ?_⟩ <;>
      simp [prepare_llm, hx, except_bind_ok, except_pure_eq, Except.map, is_running,
            start, stop, load_llm, unload_llm, setRunning, h1, lookup_updateWorker]

/-- Witness for C6 at a concrete empty threaded pool and configuration. -/
theorem c6_witness :
    ((do
      let (x1, st1) ← prepare_llm emptyThreadedPool cfgA (some "X") "f"
      is_running st1 x1) = .ok false) ∧
    ((do
      let (x1, st1) ← prepare_llm emptyThreadedPool cfgA (some "X") "f"
      let st2 ← start st1 x1
      is_running st2 x1) = .ok true) ∧
    ((do
      let (x1, st1) ← prepare_llm emptyThreadedPool cfgA (some "X") "f"
      let st2 ← start st1 x1
      let st3 ← stop st2 x1
      is_running st3 x1) = .ok false) := by
  obtain ⟨-, h2, h3, h4, -, -⟩ := c6_theorem emptyThreadedPool "X" cfgA "f" rfl
  exact ⟨h2, h3, h4⟩

theorem lookup_isSome_iff_mem_fst {α : Type} (ws : List (String × α)) (y : String) :
    (ws.lookup y).isSome = true ↔ y ∈ ws.map Prod.fst := by
  induction ws with
  | nil => simp
  | cons p rest ih =>
    obtain ⟨k, v⟩ := p
    by_cases hyk : y = k
    · subst hyk
      simp [lookup_cons_self]
    · rw [lookup_cons_ne hyk]
      simp [hyk, ih]

theorem unload_setRunning_effect (st : PoolState) (x : String) (r : WorkerRecord)
    (w : WorkerRun) (hx : st.workers.lookup x = some r) (hw : r.run = some w) :
    ∃ stp, unload_llm st x = .ok stp ∧
      (∀ y, y ≠ x → (setRunning stp x false).workers.lookup y = st.workers.lookup y) ∧
      ∃ r1, (setRunning stp x false).workers.lookup x = some r1 ∧
        r1.running = false ∧ r1.run.isSome = true := by
  obtain ⟨kind, ws⟩ := st
  simp only at hx
  cases kind with
  | threaded =>
    refine ⟨{ kind := .threaded,
              workers := (updateWorker ws x
                { r with run := some { w with switchSet := true } }) }, ?_, ?_, ?_⟩
    · simp [unload_llm, hx, hw]
    · intro y hy
      simp [setRunning, lookup_updateWorker, hx, hy]
    · refine ⟨{ r with run := some { w with switchSet := true }, running := false },
              ?_, rfl, rfl⟩
      simp [setRunning, lookup_updateWorker, hx]
  | multiprocessing =>
    refine ⟨{ kind := .multiprocessing,
              workers := (updateWorker ws x
                { r with running := false, run := some { w with switchSet := true } }) },
            ?_, ?_, ?_⟩
    · simp [unload_llm, hx, hw]
    · intro y hy
      simp [setRunning, lookup_updateWorker, hx, hy]
    · refine ⟨{ r with run := some { w with switchSet := true }, running := false },
              ?_, rfl, rfl⟩
      simp [setRunning, lookup_updateWorker, hx]

theorem stopAllFrom_spec :
    ∀ (ids : List String) (st : PoolState),
      (∀ y ∈ ids, ∃ r w, st.workers.lookup y = some r ∧ r.run = some w) →
      ∃ st', stopAllFrom ids st = .ok st' ∧
        (∀ y, (st'.workers.lookup y).isSome = (st.workers.lookup y).isSome) ∧
        (∀ y, y ∈ ids → ∀ r', st'.workers.lookup y = some r' → r'.running = false) ∧
        (∀ y r r', st.workers.lookup y = some r → st'.workers.lookup y = some r' →
          r'.running = true → r.running = true) := by
  intro ids
  induction ids with
  | nil =>
    intro st _
    refine ⟨st, rfl, fun y => rfl, ?_, ?_⟩
    · intro y hy
      exact absurd hy (List.not_mem_nil y)
    · intro y r r' h1 h2 h3
      rw [h1] at h2
      injection h2 with h4
      rw [h4]
      exact h3
  | cons x rest ih =>
    intro st h
    obtain ⟨r, w, hx, hw⟩ := h x (List.mem_cons_self x rest)
    obtain ⟨stp, hu, hother, r1, hx1, hr1run, hr1some⟩ :=
      unload_setRunning_effect st x r w hx hw
    have hyp1 : ∀ y ∈ rest, ∃ ry wy,
        (setRunning stp x false).workers.lookup y = some ry ∧ ry.run = some wy := by
      intro y hy
      by_cases hyx : y = x
      · subst hyx
        obtain ⟨w1, hw1⟩ := Option.isSome_iff_exists.mp hr1some
        exact ⟨r1, w1, hx1, hw1⟩
      · obtain ⟨ry, wy, hry, hwy⟩ := h y (List.mem_cons_of_mem x hy)
        exact ⟨ry, wy, by rw [hother y hyx]; exact hry, hwy⟩
    obtain ⟨st', hstop, hii, hiii, hiv⟩ := ih (setRunning stp x false) hyp1
    refine ⟨st', ?_, ?_, ?_, ?_⟩
    · rw [stopAllFrom, hu]
      exact hstop
    · intro y
      by_cases hyx : y = x
      · subst hyx
        rw [hii y, hx1, hx]
        rfl
      · rw [hii y, hother y hyx]
    · intro y hy r' hr'
      by_cases hyx : y = x
      · subst hyx
        cases hb : r'.running with
        | false => rfl
        | true =>
          have := hiv y r1 r' hx1 hr' hb
          rw [hr1run] at this
          exact this.symm
      · have hyrest : y ∈ rest := by
          cases List.mem_cons.mp hy with
          | inl h2 => exact absurd h2 hyx
          | inr h2 => exact h2
        exact hiii y hyrest r' hr'
    · intro y ry r' hry hr' hb
      by_cases hyx : y = x
      · subst hyx
        have := hiv y r1 r' hx1 hr' hb
        rw [hr1run] at this
        exact Bool.noConfusion this
      · have hst1 : (setRunning stp x false).workers.lookup y = some ry := by
          rw [hother y hyx]
          exact hry
        exact hiv y ry r' hst1 hr' hb

/-- C3 counterexample: on a pool holding one worker that was prepared but
never started, `stop_all` raises `KeyError("switch")` — it calls
`_unload_llm` unconditionally (unlike `stop`, which is guarded by
`is_running`), and the never-started record has no stop signal. -/
theorem c3_counterexample :
    stop_all preparedOnlyPool = .error (.keyError "switch") ∧
    stop preparedOnlyPool "X" = .ok preparedOnlyPool :=
  ⟨rfl, rfl⟩

/-- C3 amended: `stop_all` unconditionally unloads every registered worker
and clears its running flag; it succeeds on a pool with zero workers or
whose workers have all been started at least once (running or previously
stopped), after which `is_running(id) == False` for every registered id —
but unlike per-id `stop` it is not a no-op on not-running workers, and on a
worker that was prepared but never started it raises a `KeyError`-class
failure for the missing stop signal. -/
theorem c3_theorem (st : PoolState)
    (h : ∀ y r, st.workers.lookup y = some r → r.run.isSome = true) :
    ∃ st', stop_all st = .ok st' ∧
      ∀ y, (st.workers.lookup y).isSome = true → is_running st' y = .ok false := by
  have hyp1 : ∀ y ∈ st.workers.map Prod.fst, ∃ ry wy,
      st.workers.lookup y = some ry ∧ ry.run = some wy := by
    intro y hy
    have hsome := (lookup_isSome_iff_mem_fst st.workers y).mpr hy
    obtain ⟨ry, hry⟩ := Option.isSome_iff_exists.mp hsome
    obtain ⟨wy, hwy⟩ := Option.isSome_iff_exists.mp (h y ry hry)
    exact ⟨ry, wy, hry, hwy⟩
  obtain ⟨st', hstop, hii, hiii, _⟩ :=
    stopAllFrom_spec (st.workers.map Prod.fst) st hyp1
  refine ⟨st', hstop, ?_⟩
  intro y hy
  have hmem := (lookup_isSome_iff_mem_fst st.workers y).mp hy
  have hsome' : (st'.workers.lookup y).isSome = true := by
    rw [hii y]
    exact hy
  obtain ⟨r', hr'⟩ := Option.isSome_iff_exists.mp hsome'
  have hfalse := hiii y hmem r' hr'
  simp [is_running, hr', hfalse]

/-- Witness for C3 (amended) on a pool with one running worker and on the
empty pool. -/
theorem c3_witness :
    (∃ st', stop_all runningNestedPool = .ok st' ∧ is_running st' "X" = .ok false) ∧
    stop_all emptyThreadedPool = .ok emptyThreadedPool := by
  constructor
  · have hyp1 : ∀ y r, runningNestedPool.workers.lookup y = some r →
        r.run.isSome = true := by
      intro y r hy
      simp only [runningNestedPool] at hy
      by_cases hyx : y = "X"
      · subst hyx
        rw [lookup_cons_self] at hy
        injection hy with h3
        rw [← h3]
        rfl
      · rw [lookup_cons_ne hyx] at hy
        exact Option.noConfusion hy
    obtain ⟨st', h1, h2⟩ := c3_theorem runningNestedPool hyp1
    exact ⟨st', h1, h2 "X" rfl⟩
  · rfl

theorem drive_fixpoint (f : PyDict → String → String) (w : WorkerRun)
    (h : run_llm_step f w = w) : ∀ n, drive f n w = w := by
  intro n
  induction n with
  | zero => rfl
  | succ m ihm =>
    rw [drive, h]
    exact ihm

/-- C5 counterexample: a worker body blocked in `input_queue.get()` with the
stop signal already set and nothing queued never exits.  The state is
reached by prepare, start, one body step, stop — and it is a fixpoint of
the body step, so no number of scheduler steps brings the body to the
exited phase even though the stop signal is set and no further prompt ever
arrives, contradicting the claimed termination. -/
theorem c5_counterexample :
    (do
      let (x, st1) ← prepare_llm emptyThreadedPool cfgA (some "X") "f"
      let st2 ← start st1 x
      let st3 := runWorkerSteps demoFactory st2 x 1
      let st4 ← stop st3 x
      pure ((st4.workers.lookup x).bind WorkerRecord.run) :
        Except KeyErr (Option WorkerRun)) = Except.ok (some stuckRun) ∧
    stuckRun.switchSet = true ∧
    stuckRun.input = [] ∧
    stuckForever demoFactory stuckRun := by
  refine ⟨rfl, rfl, rfl, ?_⟩
  intro n
  rw [drive_fixpoint demoFactory stuckRun rfl n]
  intro h
  exact BodyPhase.noConfusion h

/-- C5 amended: the worker body checks the stop signal only at the top of
each loop iteration.  Observed set at that poll point, it exits at once;
otherwise it commits to `input_queue.get()`, which has no timeout: on each
queued prompt it pushes the model's response onto the output channel and
returns to the poll point, but with no prompt queued it stays blocked
regardless of the stop signal — a stop signal set while the body awaits a
prompt is only observed after one more prompt arrives. -/
theorem c5_theorem (f : PyDict → String → String) (w : WorkerRun) :
    (w.phase = .checkSwitch → w.switchSet = true →
      run_llm_step f w = { w with phase := .done }) ∧
    (w.phase = .checkSwitch → w.switchSet = false →
      run_llm_step f w = { w with phase := .awaitPrompt }) ∧
    (∀ p rest, w.phase = .awaitPrompt → w.input = p :: rest →
      run_llm_step f w =
        { w with input := rest, output := w.output ++ [f w.spawnedConfig p],
                 phase := .checkSwitch }) ∧
    (w.phase = .awaitPrompt → w.input = [] → run_llm_step f w = w) := by
  refine ⟨?_, ?_, ?_, ?_⟩
  · intro h1 h2
    simp [run_llm_step, h1, h2]
  · intro h1 h2
    simp [run_llm_step, h1, h2]
  · intro p rest h1 h2
    simp [run_llm_step, h1, h2]
  · intro h1 h2
    simp [run_llm_step, h1, h2]

/-- Witness for C5 (amended): the body exits in one step when it observes
the set signal at the poll point, and makes no progress when blocked on an
empty input queue with the signal set. -/
theorem c5_witness :
    run_llm_step demoFactory
      { switchSet := true, input := [], output := [], phase := .checkSwitch,
        spawnedConfig := cfgA } =
      { switchSet := true, input := [], output := [], phase := .done,
        spawnedConfig := cfgA } ∧
    run_llm_step demoFactory stuckRun = stuckRun := by
  constructor
  · exact (c5_theorem demoFactory
      { switchSet := true, input := [], output := [], phase := .checkSwitch,
        spawnedConfig := cfgA }).1 rfl rfl
  · exact (c5_theorem demoFactory stuckRun).2.2.2 rfl rfl

/-- C2: `generate` on a registered running worker pushes the prompt onto
the worker's input channel before waiting, then blocks on the output
channel and never raises: it returns the first response available on the
output channel within the wait, and `None` when the wait window ends with
the output channel still empty (the `queue.Empty` timeout is caught).  The
real-time bound of `generation_timeout` seconds is abstracted by the
extent of the wait window `n`. -/
theorem c2_theorem (f : PyDict → String → String) (st : PoolState) (x : String)
    (r : WorkerRecord) (w : WorkerRun) (p : String) (n : Nat)
    (hx : st.workers.lookup x = some r) (_hrun : r.running = true)
    (hw : r.run = some w) :
    ∃ res st', generate f st x p n = .ok (res, st') ∧
      (((drive f n { w with input := w.input ++ [p] }).output = [] ∧ res = none) ∨
       (∃ r0 rest, (drive f n { w with input := w.input ++ [p] }).output = r0 :: rest ∧
         res = some r0)) := by
  cases hout : (drive f n { w with input := w.input ++ [p] }).output with
  | nil =>
    refine ⟨none,
      { st with workers := (updateWorker st.workers x
        { r with run := some (drive f n { w with input := w.input ++ [p] }) }) },
      ?_, Or.inl ⟨rfl, rfl⟩⟩
    simp [generate, hx, hw, hout]
  | cons r0 rest =>
    refine ⟨some r0,
      { st with workers := (updateWorker st.workers x
        { r with run := some { drive f n { w with input := w.input ++ [p] } with
                               output := rest } }) },
      ?_, Or.inr ⟨r0, rest, rfl, rfl⟩⟩
    simp [generate, hx, hw, hout]

/-- Witness for C2 at a running worker that answers within the window. -/
theorem c2_witness :
    ∃ res st', generate demoFactory runningNestedPool "X" "hello" 2 = .ok (res, st') := by
  obtain ⟨res, st', h1, -⟩ := c2_theorem demoFactory runningNestedPool "X"
    { config := cfgNested, running := true,
      run := some { switchSet := false, input := [], output := [],
                    phase := .checkSwitch, spawnedConfig := cfgNested } }
    { switchSet := false, input := [], output := [], phase := .checkSwitch,
      spawnedConfig := cfgNested }
    "hello" 2 rfl rfl rfl
  exact ⟨res, st', h1⟩

/-- C10: `generate` is not atomic with respect to the worker's channels: a
timed-out call leaves the prompt on the input channel, the worker body
later consumes it and pushes its response, and the next `generate` call on
the same worker receives the response to the earlier timed-out prompt
rather than to the prompt it submitted.  Concrete trace: `generate("p1")`
with no body progress during the wait returns `None` and leaves `"p1"`
queued; the body then runs two steps, producing `"resp_p1"`; a subsequent
`generate("p2")` returns `"resp_p1"` — the response to the earlier prompt,
distinct from the response `"resp_p2"` to its own prompt. -/
theorem c10_theorem :
    ((do
      let (x, st1) ← prepare_llm emptyThreadedPool cfgA (some "X") "f"
      let st2 ← start st1 x
      let (r1, st3) ← generate demoFactory st2 x "p1" 0
      let inputAfter := (st3.workers.lookup x).bind (fun rec => rec.run.map WorkerRun.input)
      let st4 := runWorkerSteps demoFactory st3 x 2
      let (r2, _) ← generate demoFactory st4 x "p2" 0
      pure (r1, inputAfter, r2) :
        Except KeyErr (Option String × Option (List String) × Option String)) =
      Except.ok (none, some ["p1"], some "resp_p1")) ∧
    "resp_p1" ≠ "resp_p2" :=
  ⟨rfl, by decide⟩
